import Mathlib

/-!
Verification development for `pywikibot/site/_basesite.py`.

The Python module is shallowly embedded here:
* site-identity resolution (`BaseSite.__init__`, lines 49-90) becomes
  `resolveSite` over an explicit `Family` record;
* the pickling pair `__getstate__`/`__setstate__` (lines 167-181) becomes
  `getstate`/`setstate` over an explicit record of the instance dict;
* the page-lock registry (`lock_page`/`unlock_page`, lines 302-333) becomes
  pure state-passing functions plus a labelled transition system for
  multi-caller traces;
* `sametitle` (lines 391-430) becomes `sametitle` over an explicit namespace
  table.
Python `set`s of strings are modelled as `List String` used as sets; the
`threading.Condition` object is modelled by its observable content (the list
of suspended waiters).  Python `str.lower`/`str.upper` act on the ASCII
strings used for site codes exactly as `Char.toLower`/`Char.toUpper` do.
-/

namespace Pywikibot

/-- Python `str.lower` on the ASCII strings used as site codes. -/
def pyLower (s : String) : String := ⟨s.data.map Char.toLower⟩

/-- Python `str.upper` on the ASCII strings used as site codes. -/
def pyUpper (s : String) : String := ⟨s.data.map Char.toUpper⟩

theorem char_toNat_ofNat {n : Nat} (h : n.isValidChar) :
    (Char.ofNat n).toNat = n := by
  rw [Char.ofNat, dif_pos h]
  rfl

theorem char_toLower_toUpper (c : Char) : c.toUpper.toLower = c.toLower := by
  unfold Char.toUpper Char.toLower
  by_cases h : c.toNat ≥ 97 ∧ c.toNat ≤ 122
  · rw [if_pos h]
    have hv : (c.toNat - 32).isValidChar := Or.inl (by omega)
    have ht : (Char.ofNat (c.toNat - 32)).toNat = c.toNat - 32 := char_toNat_ofNat hv
    rw [ht]
    rw [if_pos (by omega), if_neg (by omega)]
    have : c.toNat - 32 + 32 = c.toNat := by omega
    rw [this, Char.ofNat_toNat]
  · rw [if_neg h]

theorem char_toLower_toLower (c : Char) : c.toLower.toLower = c.toLower := by
  unfold Char.toLower
  by_cases h : c.toNat ≥ 65 ∧ c.toNat ≤ 90
  · rw [if_pos h]
    have hv : (c.toNat + 32).isValidChar := Or.inl (by omega)
    have ht : (Char.ofNat (c.toNat + 32)).toNat = c.toNat + 32 := char_toNat_ofNat hv
    rw [ht, if_neg (by omega)]
  · rw [if_neg h, if_neg h]

theorem pyLower_pyUpper (s : String) : pyLower (pyUpper s) = pyLower s := by
  have h : Char.toLower ∘ Char.toUpper = Char.toLower := funext char_toLower_toUpper
  simp [pyLower, pyUpper, List.map_map, h]

theorem pyLower_pyLower (s : String) : pyLower (pyLower s) = pyLower s := by
  have h : Char.toLower ∘ Char.toLower = Char.toLower := funext char_toLower_toLower
  simp [pyLower, List.map_map, h]

/-- A string is lowercase when Python lowercasing leaves it unchanged. -/
def isLowercase (s : String) : Prop := pyLower s = s

instance (s : String) : Decidable (isLowercase s) := by
  unfold isLowercase; infer_instance

/-! ## Site-identity resolution (`BaseSite.__init__`, lines 49-90)

The family metadata consumed by `__init__`: `family.name`,
`family.langs` (whose key list is `BaseSite.languages()`), and
`family.obsolete` (a dict from alias code to replacement-or-`None`,
modelled as an association list). -/

structure Family where
  name : String
  langs : List String
  obsolete : List (String × Option String)
deriving DecidableEq, Repr

/-- The canonical identity data of a resolved `BaseSite`: the `_cmpkey`
constituents `(family.name, code)` plus the `obsolete` flag set by
`__init__`. -/
structure SiteIdentity where
  famName : String
  code : String
  obsolete : Bool
deriving DecidableEq, Repr

/-- `BaseSite._cmpkey` (lines 163-165): equality key `(family.name, code)`. -/
def SiteIdentity.cmpkey (s : SiteIdentity) : String × String := (s.famName, s.code)

/-- `UnknownSite` as raised at line 89: carries the rejected code and the
family name interpolated into the message. -/
inductive ResolveError where
  | unknownSite (code : String) (famName : String)
deriving DecidableEq, Repr

/-- The code-resolution logic of `BaseSite.__init__` (lines 49-90):
lowercase the requested code (line 49-54, log only), consult the obsolete
alias map (lines 66-77), otherwise check the valid-language list with the
single-language-family fallback (lines 78-90).  Character-set and
case-mismatch diagnostics are logs, never errors, so they do not appear. -/
def resolveSite (fam : Family) (code : String) : Except ResolveError SiteIdentity :=
  let c := pyLower code
  match fam.obsolete.lookup c with
  | some (some repl) => .ok ⟨fam.name, repl, false⟩
  | some none => .ok ⟨fam.name, c, true⟩
  | none =>
    if c ∈ fam.langs then .ok ⟨fam.name, c, false⟩
    else if fam.name ∈ fam.langs ∧ fam.langs.length = 1 then
      .ok ⟨fam.name, fam.name, false⟩
    else .error (.unknownSite c fam.name)

/-! ## Pickling (`__getstate__` lines 167-176, `__setstate__` lines 178-181)

The instance dict written by `__init__` contains the identity fields, the
username, `_locked_pages` (a picklable set of strings), `_pagemutex`
(a `threading.Condition`), and possibly the lazily created `_throttle` and
`_iw_sites` caches.  The condition variable is modelled by its observable
content: the list of callers currently suspended in `wait()`. -/

structure Condition where
  waiters : List Nat
deriving DecidableEq, Repr

/-- A freshly constructed `threading.Condition()`: nobody waits on it. -/
def Condition.fresh : Condition := ⟨[]⟩

/-- The instance dict of a live `BaseSite`, restricted to the attributes
`__getstate__`/`__setstate__` manipulate plus the identity data. -/
structure SiteDict where
  identity : SiteIdentity
  username : Option String
  lockedPages : List String
  pagemutex : Condition
  throttle : Option Unit
  iwSites : Option Unit
deriving DecidableEq, Repr

/-- The pickled form: `__getstate__` copies the dict and deletes
`_pagemutex`, `_throttle` and `_iw_sites`; every other entry — including
`_locked_pages` — stays. -/
structure SitePickle where
  identity : SiteIdentity
  username : Option String
  lockedPages : List String
deriving DecidableEq, Repr

/-- `BaseSite.__getstate__` (lines 167-176). -/
def getstate (s : SiteDict) : SitePickle :=
  { identity := s.identity
    username := s.username
    lockedPages := s.lockedPages }

/-- `BaseSite.__setstate__` (lines 178-181): restore the pickled dict and
construct a fresh `threading.Condition`; the deleted caches stay absent. -/
def setstate (attrs : SitePickle) : SiteDict :=
  { identity := attrs.identity
    username := attrs.username
    lockedPages := attrs.lockedPages
    pagemutex := Condition.fresh
    throttle := none
    iwSites := none }

/-! ## Page locks (`lock_page` lines 302-321, `unlock_page` lines 323-333)

Both methods first compute `page.title(with_section=False)`.  The `Page`
object lives outside this module; its title is a string possibly carrying a
`#section` fragment. -/

/-- Modelled from the spec: `page.title(with_section=False)` of the external
`Page` object, which is not part of this module — per §4.4 it drops any
section-fragment suffix from the title ("locks are page-grained, not
section-grained").  A page is represented by its full title string. -/
def titleNoSection (page : String) : String :=
  ⟨page.data.takeWhile (fun c => c ≠ '#')⟩

/-- The mutable lock state owned by one `BaseSite`: the `_locked_pages` set
(a list used as a set) and the `_pagemutex` condition variable. -/
structure PageLockRegistry where
  locked : List String
  cond : Condition
deriving DecidableEq, Repr

/-- `PageInUse` (lines 28-30), carrying the title it was raised with. -/
structure PageInUse where
  title : String
deriving DecidableEq, Repr

/-- `BaseSite.lock_page` with `block=False` (lines 302-321): under the
mutex, if the stripped title is already in `_locked_pages` the `while` body
raises `PageInUse(title)` at once and the set is left unchanged; otherwise
the loop is skipped and the title is added. -/
def lock_page_noblock (s : PageLockRegistry) (page : String) :
    Except PageInUse Unit × PageLockRegistry :=
  let title := titleNoSection page
  if title ∈ s.locked then (.error ⟨title⟩, s)
  else (.ok (), { s with locked := title :: s.locked })

/-- `BaseSite.unlock_page` (lines 323-333): under the mutex, `discard` the
stripped title from `_locked_pages` (removing every occurrence, as set
discard does; a no-op when absent) and `notify_all()` the condition
variable, waking every waiter. -/
def unlock_page (s : PageLockRegistry) (page : String) : PageLockRegistry :=
  { locked := s.locked.filter (fun x => x ≠ titleNoSection page)
    cond := ⟨[]⟩ }

/-! ## Multi-caller lock traces

Every statement of `lock_page`/`unlock_page` that touches `_locked_pages`
runs while holding `_pagemutex`, so any interleaving of callers is a
sequence of atomic critical sections.  `SysState` pairs the code state
(`locked`) with the ghost record of which caller currently holds which
title: caller `c` holds `t` from the moment its `lock_page` returns until
its next `unlock_page` of `t`. -/

structure SysState where
  locked : List String
  holds : List (Nat × String)
deriving DecidableEq, Repr

/-- One atomic critical section of the lock code, by any caller `c`:
a successful acquisition (the `while` guard is false, `add` runs), a
non-blocking failure (`PageInUse` raised, state unchanged), or an
`unlock_page` (unconditional `discard` plus `notify_all`).  A blocked
`lock_page(block=True)` caller has no enabled acquisition step while its
title is held — it sits in `wait()`.  Titles are already in
section-stripped form. -/
inductive LockStep : SysState → SysState → Prop where
  | acq (c : Nat) (t : String) (s : SysState) (h : t ∉ s.locked) :
      LockStep s ⟨t :: s.locked, (c, t) :: s.holds⟩
  | failNB (c : Nat) (t : String) (s : SysState) (h : t ∈ s.locked) :
      LockStep s s
  | unl (c : Nat) (t : String) (s : SysState) :
      LockStep s ⟨s.locked.filter (fun x => x ≠ t), s.holds.erase (c, t)⟩

/-- States reachable from a freshly initialized registry by arbitrary
interleavings of critical sections, with no discipline on who unlocks. -/
inductive ReachableL : SysState → Prop where
  | init : ReachableL ⟨[], []⟩
  | step {s s' : SysState} : ReachableL s → LockStep s s' → ReachableL s'

/-- `LockStep` under the usage discipline of the API: a caller only unlocks
a title it holds itself, or a title nobody holds (the defensive no-op
release of a cleanup race). -/
inductive LockStepW : SysState → SysState → Prop where
  | acq (c : Nat) (t : String) (s : SysState) (h : t ∉ s.locked) :
      LockStepW s ⟨t :: s.locked, (c, t) :: s.holds⟩
  | failNB (c : Nat) (t : String) (s : SysState) (h : t ∈ s.locked) :
      LockStepW s s
  | unl (c : Nat) (t : String) (s : SysState)
      (h : (c, t) ∈ s.holds ∨ t ∉ s.locked) :
      LockStepW s ⟨s.locked.filter (fun x => x ≠ t), s.holds.erase (c, t)⟩

/-- Reachability under the usage discipline. -/
inductive ReachableW : SysState → Prop where
  | init : ReachableW ⟨[], []⟩
  | step {s s' : SysState} : ReachableW s → LockStepW s s' → ReachableW s'

/-- The inductive invariant of the disciplined system. -/
def LockInv (s : SysState) : Prop :=
  s.locked.Nodup ∧ (s.holds.map Prod.snd).Nodup ∧
    ∀ t, t ∈ s.locked ↔ t ∈ s.holds.map Prod.snd

theorem nodup_snd_unique {c c' : Nat} {t : String} :
    ∀ {l : List (Nat × String)}, (l.map Prod.snd).Nodup →
      (c, t) ∈ l → (c', t) ∈ l → c = c' := by
  intro l
  induction l with
  | nil => intro _ h; exact absurd h (by simp)
  | cons p rest ih =>
    intro hnd h1 h2
    rw [List.map_cons, List.nodup_cons] at hnd
    rcases List.mem_cons.mp h1 with h1 | h1 <;>
      rcases List.mem_cons.mp h2 with h2 | h2
    · rw [← h1] at h2; exact (Prod.mk.injEq .. ▸ h2).1.symm
    · exact absurd (List.mem_map.mpr ⟨(c', t), h2, rfl⟩) (h1 ▸ hnd.1)
    · exact absurd (List.mem_map.mpr ⟨(c, t), h1, rfl⟩) (h2 ▸ hnd.1)
    · exact ih hnd.2 h1 h2

theorem snd_not_mem_erase {c : Nat} {t : String} :
    ∀ {l : List (Nat × String)}, (l.map Prod.snd).Nodup →
      (c, t) ∈ l → t ∉ (l.erase (c, t)).map Prod.snd := by
  intro l
  induction l with
  | nil => intro _ h; exact absurd h (by simp)
  | cons p rest ih =>
    intro hnd hm
    rw [List.map_cons, List.nodup_cons] at hnd
    by_cases hp : p = (c, t)
    · subst hp
      rw [List.erase_cons_head]
      exact hnd.1
    · have hm' : (c, t) ∈ rest := by
        rcases List.mem_cons.mp hm with h | h
        · exact absurd h.symm hp
        · exact h
      rw [List.erase_cons_tail (by simpa using hp)]
      rw [List.map_cons]
      intro hmem
      rcases List.mem_cons.mp hmem with h | h
      · exact hnd.1 (h ▸ List.mem_map.mpr ⟨(c, t), hm', rfl⟩)
      · exact ih hnd.2 hm' h

theorem mem_snd_erase_of_ne {c : Nat} {t u : String} (hne : u ≠ t)
    {l : List (Nat × String)} :
    u ∈ (l.erase (c, t)).map Prod.snd ↔ u ∈ l.map Prod.snd := by
  constructor
  · intro h
    exact (List.Sublist.map Prod.snd (List.erase_sublist (c, t) l)).mem h
  · intro h
    obtain ⟨⟨d, u'⟩, hm, he⟩ := List.mem_map.mp h
    subst he
    refine List.mem_map.mpr ⟨(d, u'), ?_, rfl⟩
    exact (List.mem_erase_of_ne (fun hpe => hne (by rw [hpe]))).mpr hm

theorem lockInv_step {s s' : SysState} (hinv : LockInv s)
    (hs : LockStepW s s') : LockInv s' := by
  obtain ⟨hl, hh, hiff⟩ := hinv
  cases hs with
  | acq c t _ h =>
    refine ⟨List.nodup_cons.mpr ⟨h, hl⟩, ?_, ?_⟩
    · rw [List.map_cons]
      exact List.nodup_cons.mpr ⟨fun hm => h ((hiff t).mpr hm), hh⟩
    · intro u
      rw [List.map_cons, List.mem_cons, List.mem_cons, hiff u]
  | failNB c t _ h => exact ⟨hl, hh, hiff⟩
  | unl c t _ h =>
    rcases h with h | h
    · refine ⟨(List.filter_sublist _).nodup hl,
        ((List.erase_sublist _ _).map Prod.snd).nodup hh, ?_⟩
      intro u
      by_cases hu : u = t
      · subst hu
        simp only [List.mem_filter]
        constructor
        · rintro ⟨-, hdec⟩; simp at hdec
        · intro hmem; exact absurd hmem (snd_not_mem_erase hh h)
      · rw [mem_snd_erase_of_ne hu, ← hiff u, List.mem_filter]
        constructor
        · exact fun hx => hx.1
        · exact fun hx => ⟨hx, by simp [hu]⟩
    · have hnm : (c, t) ∉ s.holds := fun hm =>
        h ((hiff t).mpr (List.mem_map.mpr ⟨(c, t), hm, rfl⟩))
      rw [List.erase_of_not_mem hnm,
        List.filter_eq_self.mpr (fun a ha => by
          simp only [ne_eq, decide_eq_true_eq]
          exact fun hat => h (hat ▸ ha))]
      exact ⟨hl, hh, hiff⟩

theorem lockInv_reachable {s : SysState} (h : ReachableW s) : LockInv s := by
  induction h with
  | init => exact ⟨List.nodup_nil, List.nodup_nil, by simp⟩
  | step _ hs ih => exact lockInv_step ih hs

/-! ## `sametitle` (lines 391-430)

`sametitle` consults `self.namespaces`, a `NamespacesDict` built from
`Namespace.builtin_namespaces()` (lines 265-274).  The `Namespace` and
`NamespacesDict` classes live in `pywikibot.site._namespace`, outside this
module, so they are modelled from the spec (§3, §4.2): a namespace is a
small-integer identifier with names/aliases and a case-folding mode, always
compared by identifier. -/

inductive CaseRule where
  | firstLetter
  | caseSensitive
deriving DecidableEq, Repr

/-- Modelled from the spec: a `Namespace` descriptor of
`pywikibot.site._namespace` — identifier, names and aliases, case-folding
mode (the source attribute is called `case`). -/
structure Namespace where
  id : Int
  names : List String
  caseRule : CaseRule
deriving DecidableEq, Repr

/-- `re.sub(r'[_ ]+', ' ', title)` (lines 410-411): every maximal run of
underscores and spaces becomes a single space.  The flag records whether
the previous character belonged to such a run. -/
def squashAux : List Char → Bool → List Char
  | [], _ => []
  | ch :: rest, inRun =>
    if ch = '_' ∨ ch = ' ' then
      if inRun then squashAux rest true
      else ' ' :: squashAux rest true
    else ch :: squashAux rest false

def squashSpaces (t : String) : String := ⟨squashAux t.data false⟩

/-- Python `str.strip()` (lines 423-424): drop whitespace from both ends. -/
def pyStrip (s : String) : String :=
  ⟨((s.data.dropWhile Char.isWhitespace).reverse.dropWhile
      Char.isWhitespace).reverse⟩

/-- Modelled from the spec: `first_upper` from `pywikibot.tools` is not
part of this module; per §4.3 step 6 it uppercases only the first letter
and leaves the rest of the string untouched. -/
def first_upper (s : String) : String :=
  match s.data with
  | [] => ⟨[]⟩
  | ch :: rest => ⟨ch.toUpper :: rest⟩

/-- Modelled from the spec: `NamespacesDict.lookup_name` from
`pywikibot.site._namespace` is not part of this module; per §4.2 it is a
"case/alias-aware lookup" that "must also recognize normalized
(underscore-to-space, single-spaced) forms".  A query matches a namespace
when, after underscore/space normalization and case folding, it equals one
of the namespace's names. -/
def lookup_name (nss : List Namespace) (ns : String) : Option Namespace :=
  nss.find? (fun n =>
    n.names.any (fun m => pyLower (squashSpaces m) == pyLower (squashSpaces ns)))

/-- The article namespace used when the table lacks an entry for
identifier 0: built-in namespace 0 has no prefix names and first-letter
case. -/
def mainNamespace : Namespace := ⟨0, [], .firstLetter⟩

/-- `self.namespaces[0]` (line 415): the entry of the site's namespace
table with identifier 0. -/
def defaultNs (nss : List Namespace) : Namespace :=
  (nss.find? (fun n => n.id == 0)).getD mainNamespace

/-- Python `str.partition(':')` on the character list: the part before the
first colon, whether a colon occurred, and the part after it. -/
def partitionColon : List Char → List Char × Bool × List Char
  | [] => ([], false, [])
  | ch :: rest =>
    if ch = ':' then ([], true, rest)
    else
      let p := partitionColon rest
      (ch :: p.1, p.2.1, p.2.2)

/-- The inner `ns_split` of `sametitle` (lines 398-406): split on the
first colon; when a colon exists and its prefix resolves to a known
namespace, return that namespace with the remainder; otherwise the whole
title lives in the default namespace (`not delim or not ns`). -/
def ns_split (nss : List Namespace) (title : String) : Namespace × String :=
  let p := partitionColon title.data
  if p.2.1 then
    match lookup_name nss ⟨p.1⟩ with
    | some n => (n, ⟨p.2.2⟩)
    | none => (defaultNs nss, title)
  else (defaultNs nss, title)

/-- `BaseSite.sametitle` (lines 391-430): normalize underscore/space runs,
take the fast path on equal strings, split off namespaces, compare
namespaces by identifier, then compare the stripped local names, folding
only the first letter when the first namespace's case rule says so. -/
def sametitle (nss : List Namespace) (title1 title2 : String) : Bool :=
  if squashSpaces title1 == squashSpaces title2 then true
  else if (ns_split nss (squashSpaces title1)).1.id ≠
      (ns_split nss (squashSpaces title2)).1.id then false
  else if (ns_split nss (squashSpaces title1)).1.caseRule = CaseRule.firstLetter then
    first_upper (pyStrip (ns_split nss (squashSpaces title1)).2) ==
      first_upper (pyStrip (ns_split nss (squashSpaces title2)).2)
  else
    pyStrip (ns_split nss (squashSpaces title1)).2 ==
      pyStrip (ns_split nss (squashSpaces title2)).2

/-- The relevant built-in namespaces of `Namespace.builtin_namespaces()`
(line 267); every built-in namespace uses first-letter case. -/
def builtinNamespaces : List Namespace :=
  [⟨0, [], .firstLetter⟩,
   ⟨1, ["Talk"], .firstLetter⟩,
   ⟨2, ["User"], .firstLetter⟩,
   ⟨3, ["User talk"], .firstLetter⟩,
   ⟨10, ["Template"], .firstLetter⟩,
   ⟨11, ["Template talk"], .firstLetter⟩,
   ⟨14, ["Category"], .firstLetter⟩,
   ⟨15, ["Category talk"], .firstLetter⟩]

theorem ns_split_cases (nss : List Namespace) (t : String) :
    (ns_split nss t).1 ∈ nss ∨ (ns_split nss t).1 = defaultNs nss := by
  unfold ns_split
  by_cases hp : (partitionColon t.data).2.1
  · rw [if_pos hp]
    cases hl : lookup_name nss ⟨(partitionColon t.data).1⟩
    · right; rfl
    · left
      exact List.mem_of_find?_eq_some hl
  · rw [if_neg hp]
    right; rfl

theorem defaultNs_spec (nss : List Namespace) :
    defaultNs nss ∈ nss ∨
      (defaultNs nss = mainNamespace ∧ ∀ n ∈ nss, n.id ≠ 0) := by
  unfold defaultNs
  cases hf : nss.find? (fun n => n.id == 0)
  · right
    refine ⟨rfl, fun n hn h0 => ?_⟩
    have := List.find?_eq_none.mp hf n hn
    simp [h0] at this
  · left
    simpa using List.mem_of_find?_eq_some hf

theorem defaultNs_id (nss : List Namespace) :
    defaultNs nss ∈ nss ∨ defaultNs nss = mainNamespace := by
  rcases defaultNs_spec nss with h | ⟨h, -⟩
  · exact Or.inl h
  · exact Or.inr h

theorem ns_split_eq_of_id_eq (nss : List Namespace)
    (wf : ∀ a ∈ nss, ∀ b ∈ nss, a.id = b.id → a = b) (x y : String)
    (h : (ns_split nss x).1.id = (ns_split nss y).1.id) :
    (ns_split nss x).1 = (ns_split nss y).1 := by
  have hmain : ∀ z : String, (ns_split nss z).1 ∈ nss ∨
      ((ns_split nss z).1 = mainNamespace ∧ ∀ n ∈ nss, n.id ≠ 0) := by
    intro z
    rcases ns_split_cases nss z with hz | hz
    · exact Or.inl hz
    · rcases defaultNs_spec nss with hd | ⟨hd, hall⟩
      · exact Or.inl (hz ▸ hd)
      · exact Or.inr ⟨hz.trans hd, hall⟩
  rcases hmain x with hx | ⟨hx, hallx⟩ <;> rcases hmain y with hy | ⟨hy, hally⟩
  · exact wf _ hx _ hy h
  · exfalso
    exact hally _ hx (by rw [h, hy]; rfl)
  · exfalso
    exact hallx _ hy (by rw [← h, hx]; rfl)
  · rw [hx, hy]

theorem beq_comm_of_lawful {α : Type} [DecidableEq α] {inst : BEq α}
    [LawfulBEq α] (a b : α) : (a == b) = (b == a) := by
  by_cases h : a = b
  · rw [h]
  · rw [beq_eq_false_iff_ne.mpr h, beq_eq_false_iff_ne.mpr (Ne.symm h)]

theorem sametitle_symm_aux (nss : List Namespace)
    (wf : ∀ a ∈ nss, ∀ b ∈ nss, a.id = b.id → a = b) (t1 t2 : String) :
    sametitle nss t1 t2 = sametitle nss t2 t1 := by
  unfold sametitle
  by_cases he : squashSpaces t1 = squashSpaces t2
  · rw [if_pos (beq_iff_eq.mpr he), if_pos (beq_iff_eq.mpr he.symm)]
  · rw [if_neg (fun hb => he (beq_iff_eq.mp hb)),
      if_neg (fun hb => he (beq_iff_eq.mp hb).symm)]
    by_cases hid : (ns_split nss (squashSpaces t1)).1.id =
        (ns_split nss (squashSpaces t2)).1.id
    · have hn1 : ¬((ns_split nss (squashSpaces t1)).1.id ≠
          (ns_split nss (squashSpaces t2)).1.id) := fun hc => hc hid
      have hn2 : ¬((ns_split nss (squashSpaces t2)).1.id ≠
          (ns_split nss (squashSpaces t1)).1.id) := fun hc => hc hid.symm
      rw [if_neg hn1, if_neg hn2]
      have hobj := ns_split_eq_of_id_eq nss wf _ _ hid
      rw [hobj]
      by_cases hcr :
          (ns_split nss (squashSpaces t2)).1.caseRule = CaseRule.firstLetter
      · rw [if_pos hcr, if_pos hcr]
        exact beq_comm_of_lawful _ _
      · rw [if_neg hcr, if_neg hcr]
        exact beq_comm_of_lawful _ _
    · have hp1 : (ns_split nss (squashSpaces t1)).1.id ≠
          (ns_split nss (squashSpaces t2)).1.id := hid
      have hp2 : (ns_split nss (squashSpaces t2)).1.id ≠
          (ns_split nss (squashSpaces t1)).1.id := fun h => hid h.symm
      rw [if_pos hp1, if_pos hp2]

/-! ## The claims -/

/-- The site used against claim C1: it holds the lock on "Foo", a thread
waits on the mutex, and the throttle cache is populated. -/
def c1Site : SiteDict :=
  { identity := ⟨"wikipedia", "en", false⟩
    username := none
    lockedPages := ["Foo"]
    pagemutex := ⟨[5]⟩
    throttle := some ()
    iwSites := none }

/-- C1 counterexample: `__getstate__` deletes `_pagemutex`, `_throttle` and
`_iw_sites` but keeps `_locked_pages`, so pickling a site that held the
lock on "Foo" and restoring it yields a site whose locked set still
contains "Foo" — not a site with zero held locks. -/
theorem C1_counterexample :
    "Foo" ∈ c1Site.lockedPages ∧
      "Foo" ∈ (setstate (getstate c1Site)).lockedPages := by
  exact ⟨by decide, by decide⟩

/-- C1 (amended): serializing and restoring a `BaseSite` reconstructs the
`_pagemutex` condition variable fresh and leaves the throttle and interwiki
caches absent, but the locked-title set (and the identity data) is
preserved verbatim from serialization time rather than emptied. -/
theorem C1_theorem (s : SiteDict) :
    (setstate (getstate s)).lockedPages = s.lockedPages ∧
      (setstate (getstate s)).pagemutex = Condition.fresh ∧
      (setstate (getstate s)).throttle = none ∧
      (setstate (getstate s)).iwSites = none ∧
      (setstate (getstate s)).identity = s.identity :=
  ⟨rfl, rfl, rfl, rfl, rfl⟩

/-- The state reached by: caller 0 locks "X"; caller 1 calls `unlock_page`
for "X" (the code discards the title without checking ownership); caller 1
then locks "X" while caller 0 still holds it. -/
def c2BadState : SysState := ⟨["X"], [(1, "X"), (0, "X")]⟩

/-- C2 counterexample: under the raw code semantics a sequence of
lock/unlock critical sections reaches a state in which callers 0 and 1
simultaneously hold the lock for "X", because `unlock_page` removes a
title from `_locked_pages` without checking that the caller acquired it
(and en route, after caller 1's unlock, "X" was held by caller 0 yet
absent from the locked set, breaking the membership iff as well). -/
theorem C2_counterexample :
    ReachableL c2BadState ∧ (0, "X") ∈ c2BadState.holds ∧
      (1, "X") ∈ c2BadState.holds := by
  refine ⟨?_, by decide, by decide⟩
  have h1 : ReachableL ⟨["X"], [(0, "X")]⟩ :=
    ReachableL.step ReachableL.init (LockStep.acq 0 "X" ⟨[], []⟩ (by decide))
  have h2 : ReachableL ⟨[], [(0, "X")]⟩ := by
    have heq : (⟨(["X"] : List String).filter (fun x => x ≠ "X"),
        ([(0, "X")] : List (Nat × String)).erase (1, "X")⟩ : SysState) =
        ⟨[], [(0, "X")]⟩ := by decide
    exact heq ▸ ReachableL.step h1 (LockStep.unl 1 "X" ⟨["X"], [(0, "X")]⟩)
  exact ReachableL.step h2 (LockStep.acq 1 "X" ⟨[], [(0, "X")]⟩ (by decide))

/-- C2 (amended): for every interleaved sequence of lock/unlock critical
sections by any number of callers in which a caller only ever unlocks a
title it currently holds or a title nobody holds, every reachable state
satisfies the invariant: a title is in the locked set iff some caller
currently holds it, and no two callers hold the same title at once. -/
theorem C2_theorem (s : SysState) (h : ReachableW s) :
    (∀ t, t ∈ s.locked ↔ ∃ c, (c, t) ∈ s.holds) ∧
      (∀ c c' t, (c, t) ∈ s.holds → (c', t) ∈ s.holds → c = c') := by
  obtain ⟨-, hh, hiff⟩ := lockInv_reachable h
  refine ⟨fun t => ?_, fun c c' t h1 h2 => nodup_snd_unique hh h1 h2⟩
  rw [hiff t, List.mem_map]
  constructor
  · rintro ⟨⟨d, u⟩, hm, rfl⟩
    exact ⟨d, hm⟩
  · rintro ⟨d, hd⟩
    exact ⟨(d, t), hd, rfl⟩

/-- The state in which caller 0 alone holds "X". -/
def c2OneLock : SysState := ⟨["X"], [(0, "X")]⟩

theorem C2_witness :
    "X" ∈ c2OneLock.locked ↔ ∃ c, (c, "X") ∈ c2OneLock.holds :=
  ( C2_theorem c2OneLock
    (ReachableW.step ReachableW.init
      (LockStepW.acq 0 "X" ⟨[], []⟩ (by decide)))).1 "X"

/-- C3: with `block=False`, `lock_page` raises `PageInUse` carrying the
section-stripped title exactly when that title is already in the locked
set, leaving the set unchanged in that case; otherwise it inserts the
title and returns successfully. -/
theorem C3_theorem (s : PageLockRegistry) (page : String) :
    (titleNoSection page ∈ s.locked →
      lock_page_noblock s page = (.error ⟨titleNoSection page⟩, s)) ∧
    (titleNoSection page ∉ s.locked →
      lock_page_noblock s page =
        (.ok (), { s with locked := titleNoSection page :: s.locked })) := by
  constructor
  · intro h
    simp [lock_page_noblock, h]
  · intro h
    simp [lock_page_noblock, h]

theorem C3_witness :
    lock_page_noblock ⟨["Foo"], ⟨[]⟩⟩ "Foo#Sect" =
      (.error ⟨titleNoSection "Foo#Sect"⟩, ⟨["Foo"], ⟨[]⟩⟩) :=
  ( C3_theorem ⟨["Foo"], ⟨[]⟩⟩ "Foo#Sect").1 (by decide)

/-- C4: `unlock_page` is a total function (it never fails): it removes the
page's section-stripped title from the locked set, leaves the set unchanged
when the title is absent, and in every case empties the waiter list of the
condition variable (`notify_all` wakes all waiters). -/
theorem C4_theorem (s : PageLockRegistry) (page : String) :
    titleNoSection page ∉ (unlock_page s page).locked ∧
      (∀ u, u ≠ titleNoSection page →
        (u ∈ (unlock_page s page).locked ↔ u ∈ s.locked)) ∧
      (titleNoSection page ∉ s.locked →
        (unlock_page s page).locked = s.locked) ∧
      (unlock_page s page).cond.waiters = [] := by
  refine ⟨?_, ?_, ?_, rfl⟩
  · simp [unlock_page, List.mem_filter]
  · intro u hu
    simp [unlock_page, List.mem_filter, hu]
  · intro h
    simp only [unlock_page]
    exact List.filter_eq_self.mpr (fun a ha => by
      simp only [ne_eq, decide_eq_true_eq]
      exact fun hat => h (hat ▸ ha))

theorem C4_witness :
    (unlock_page ⟨["Bar"], ⟨[7]⟩⟩ "Foo#Top").locked = ["Bar"] :=
  ( C4_theorem ⟨["Bar"], ⟨[7]⟩⟩ "Foo#Top").2.2.1 (by decide)

/-- C5: a requested code whose lowercase form maps to `None` in the
family's obsolete table resolves successfully to an identity marked
obsolete whose code is the alias key itself, and the valid-language list is
never consulted: replacing it by any list gives the same result. -/
theorem C5_theorem (fam : Family) (code : String)
    (h : fam.obsolete.lookup (pyLower code) = some none) :
    resolveSite fam code = .ok ⟨fam.name, pyLower code, true⟩ ∧
      ∀ ls : List String,
        resolveSite { fam with langs := ls } code = resolveSite fam code := by
  constructor
  · simp [resolveSite, h]
  · intro ls
    simp [resolveSite, h]

theorem C5_witness :
    resolveSite ⟨"wikipedia", ["en"], [("mo", none)]⟩ "MO" =
      .ok ⟨"wikipedia", pyLower "MO", true⟩ :=
  ( C5_theorem ⟨"wikipedia", ["en"], [("mo", none)]⟩ "MO" (by decide)).1

/-- C6: when the lowercased requested code is neither an obsolete alias nor
a valid language, resolution adopts the family name if the family has
exactly one valid language named like the family itself, and in every other
case raises `UnknownSite` naming the rejected code and the family. -/
theorem C6_theorem (fam : Family) (code : String)
    (h1 : fam.obsolete.lookup (pyLower code) = none)
    (h2 : pyLower code ∉ fam.langs) :
    (fam.name ∈ fam.langs ∧ fam.langs.length = 1 →
      resolveSite fam code = .ok ⟨fam.name, fam.name, false⟩) ∧
    (¬(fam.name ∈ fam.langs ∧ fam.langs.length = 1) →
      resolveSite fam code = .error (.unknownSite (pyLower code) fam.name)) := by
  constructor
  · intro h3
    simp [resolveSite, h1, h2, h3]
  · intro h3
    simp [resolveSite, h1, h2, h3]

theorem C6_witness :
    resolveSite ⟨"wikisource", ["wikisource"], []⟩ "xx" =
        .ok ⟨"wikisource", "wikisource", false⟩ ∧
      resolveSite ⟨"wikipedia", ["en", "de"], []⟩ "xx" =
        .error (.unknownSite (pyLower "xx") "wikipedia") :=
  ⟨( C6_theorem ⟨"wikisource", ["wikisource"], []⟩ "xx"
      (by decide) (by decide)).1 (by decide),
   ( C6_theorem ⟨"wikipedia", ["en", "de"], []⟩ "xx"
      (by decide) (by decide)).2 (by decide)⟩

/-- The family used against claim C7: "aa" is a valid language but also an
obsolete alias whose replacement "BB" is adopted verbatim. -/
def c7Fam : Family := ⟨"wikipedia", ["aa", "bb"], [("aa", some "BB")]⟩

/-- C7 counterexample: resolving the valid code "aa" of `c7Fam` succeeds
with stored code "BB", which is not lowercase — an obsolete-alias
replacement is adopted verbatim from the family table without lowercasing,
so the stored code of a resolved identity is not always lowercase. -/
theorem C7_counterexample :
    resolveSite c7Fam "aa" = .ok ⟨"wikipedia", "BB", false⟩ ∧
      ¬ isLowercase "BB" :=
  ⟨rfl, by decide⟩

/-- C7 (amended): resolving the uppercased and the lowercased form of any
code gives identical results, hence identities equal on the
`(familyName, code)` key; and whenever the stored code derives from the
requested code itself — the lowercased code is a valid language not
redirected through the obsolete table — it is the lowercase form of the
request.  Codes adopted from family metadata (alias replacements, the
family-name fallback) are stored verbatim and need not be lowercase. -/
theorem C7_theorem (fam : Family) (code : String) :
    resolveSite fam (pyUpper code) = resolveSite fam (pyLower code) ∧
      (fam.obsolete.lookup (pyLower code) = none → pyLower code ∈ fam.langs →
        resolveSite fam code = .ok ⟨fam.name, pyLower code, false⟩ ∧
          isLowercase (pyLower code)) := by
  constructor
  · simp only [resolveSite, pyLower_pyUpper, pyLower_pyLower]
  · intro h1 h2
    exact ⟨by simp [resolveSite, h1, h2], pyLower_pyLower code⟩

theorem C7_witness :
    resolveSite ⟨"wikipedia", ["en"], []⟩ (pyUpper "En") =
        resolveSite ⟨"wikipedia", ["en"], []⟩ (pyLower "En") ∧
      resolveSite ⟨"wikipedia", ["en"], []⟩ "En" =
        .ok ⟨"wikipedia", pyLower "En", false⟩ :=
  ⟨( C7_theorem ⟨"wikipedia", ["en"], []⟩ "En").1,
   (( C7_theorem ⟨"wikipedia", ["en"], []⟩ "En").2 (by decide) (by decide)).1⟩

/-- C8: two titles whose normalized forms differ and whose namespace
prefixes resolve to different namespace identifiers are never the same
page, whatever the local names; in particular "Category:Foo" and "foo"
differ on the built-in namespace table, where "Category" is a real
namespace. -/
theorem C8_theorem (nss : List Namespace) (t1 t2 : String)
    (hne : squashSpaces t1 ≠ squashSpaces t2)
    (hns : (ns_split nss (squashSpaces t1)).1.id ≠
      (ns_split nss (squashSpaces t2)).1.id) :
    sametitle nss t1 t2 = false ∧
      sametitle builtinNamespaces "Category:Foo" "foo" = false := by
  refine ⟨?_, by decide⟩
  unfold sametitle
  rw [if_neg (fun hb => hne (beq_iff_eq.mp hb)), if_pos hns]

theorem C8_witness :
    sametitle builtinNamespaces "Category:Foo" "Talk:Foo" = false :=
  ( C8_theorem builtinNamespaces "Category:Foo" "Talk:Foo"
    (by decide) (by decide)).1

/-- C9: when both titles resolve to the same namespace identifier and that
namespace's case rule is first-letter, `sametitle` compares the stripped
local names after uppercasing exactly their first letters, leaving the rest
untouched; on the built-in table "template:Foo" matches "Template:foo"
while "template:fOo" does not match "Template:Foo". -/
theorem C9_theorem (nss : List Namespace) (t1 t2 : String)
    (hne : squashSpaces t1 ≠ squashSpaces t2)
    (hid : (ns_split nss (squashSpaces t1)).1.id =
      (ns_split nss (squashSpaces t2)).1.id)
    (hcase : (ns_split nss (squashSpaces t1)).1.caseRule =
      CaseRule.firstLetter) :
    sametitle nss t1 t2 =
        (first_upper (pyStrip (ns_split nss (squashSpaces t1)).2) ==
          first_upper (pyStrip (ns_split nss (squashSpaces t2)).2)) ∧
      sametitle builtinNamespaces "template:Foo" "Template:foo" = true ∧
      sametitle builtinNamespaces "template:fOo" "Template:Foo" = false := by
  refine ⟨?_, by decide, by decide⟩
  unfold sametitle
  rw [if_neg (fun hb => hne (beq_iff_eq.mp hb)), if_neg (fun hc => hc hid),
    if_pos hcase]

theorem C9_witness :
    sametitle builtinNamespaces "template:Foo" "Template:foo" =
      (first_upper (pyStrip
          (ns_split builtinNamespaces (squashSpaces "template:Foo")).2) ==
        first_upper (pyStrip
          (ns_split builtinNamespaces (squashSpaces "Template:foo")).2)) :=
  ( C9_theorem builtinNamespaces "template:Foo" "Template:foo"
    (by decide) (by decide) (by decide)).1

/-- C10: on a fixed site whose namespace table assigns equal descriptors to
equal identifiers, `sametitle` is reflexive and symmetric, and titles
differing only in runs of underscores and spaces denote the same page:
"Foo_bar" and "Foo bar" match on every namespace table. -/
theorem C10_theorem (nss : List Namespace)
    (wf : ∀ a ∈ nss, ∀ b ∈ nss, a.id = b.id → a = b) (t t1 t2 : String) :
    sametitle nss t t = true ∧
      sametitle nss t1 t2 = sametitle nss t2 t1 ∧
      sametitle nss "Foo_bar" "Foo bar" = true := by
  refine ⟨?_, sametitle_symm_aux nss wf t1 t2, ?_⟩
  · unfold sametitle
    rw [if_pos (beq_iff_eq.mpr rfl)]
  · unfold sametitle
    rw [if_pos (beq_iff_eq.mpr (by decide))]

theorem C10_witness :
    sametitle builtinNamespaces "Foo" "Foo" = true ∧
      sametitle builtinNamespaces "Template:A" "Talk:A" =
        sametitle builtinNamespaces "Talk:A" "Template:A" :=
  ⟨( C10_theorem builtinNamespaces (by decide) "Foo" "x" "y").1,
   ( C10_theorem builtinNamespaces (by decide) "z" "Template:A"
      "Talk:A").2.1⟩

end Pywikibot
